import Mathlib

/-!
# kubemr operator: reconciliation loop and patch protocol

A shallow embedding of `cmd/operator/main.go`.

* Go `error` values are `GoError` records; `nil` is `none`.
* Calls that leave the process (list fetch, patch request, type-descriptor get and
  create, client construction) are answered by an environment record. The API
  server is a state `W` threaded through the calls, so its answers may depend on
  everything that happened before.
* Every outbound request, validator call, error log line and sleep is appended to a
  trace, so that "how many requests were issued, to whom, in which order" is a
  statement about a list.
* `log.Info` lines have no effect on control flow and are not traced.
-/

namespace Kubemr

/-! ## Data model -/

/-- A Go `error`: its `Error()` text, and for API status errors the status reason
(the empty string for every other error). -/
structure GoError where
  Reason : String
  Message : String
deriving DecidableEq, Repr

/-- The test `errors.IsAlreadyExists` of the API machinery: the status reason is
`AlreadyExists`. -/
def IsAlreadyExists (err : GoError) : Bool :=
  err.Reason == "AlreadyExists"

/-- Modelled from the spec: the constant `job.StatusFail` of package `pkg/job`, whose
source is not part of the operator's file; the spec names the status `Fail`. -/
def StatusFail : String := "Fail"

/-- Modelled from the spec: the constant `job.StatusPending` of package `pkg/job`, whose
source is not part of the operator's file; the spec names the status `Pending`. -/
def StatusPending : String := "Pending"

/-- The fields of `job.MapReduceJob` the operator reads. `σ` is the type of the job
specification, which the operator only hands to the validator. -/
structure MapReduceJob (σ : Type) where
  Namespace : String
  Name : String
  Status : String
  Spec : σ
deriving DecidableEq, Repr

/-- One JSON-patch operation, the map built by `addPatchObj`: the keys `op`, `path`
and `value`. Every value the operator stores is a string. -/
structure PatchObj where
  op : String
  path : String
  value : String
deriving DecidableEq, Repr

/-- What the operator does that is visible from outside. -/
inductive Event (σ : Type) where
  | list : Event σ
  | validate (spec : σ) : Event σ
  | patch (ns name : String) (body : List PatchObj) : Event σ
  | logError (err : GoError) : Event σ
  | sleep (nanoseconds : Nat) : Event σ
deriving DecidableEq, Repr

/-- The collaborators of the reconciliation loop: the job directory client
(`jobclient.List`), the REST client (`Patch(...).DoRaw()`) and the validator
(`Spec.Validate`). -/
structure Api (σ W : Type) where
  DoRaw : String → String → List PatchObj → W → Option GoError × W
  Validate : σ → Option GoError
  List : W → Except GoError (List (MapReduceJob σ)) × W

/-- API server state and the trace of what the operator did so far. -/
structure State (σ W : Type) where
  world : W
  trace : List (Event σ)

/-- Appends one event to the trace. -/
def State.emit {σ W : Type} (s : State σ W) (e : Event σ) : State σ W :=
  ⟨s.world, s.trace ++ [e]⟩

/-- Is the event a patch request? -/
def Event.isPatch {σ : Type} : Event σ → Bool
  | .patch _ _ _ => true
  | _ => false

/-- Is the event a validator call? -/
def Event.isValidate {σ : Type} : Event σ → Bool
  | .validate _ => true
  | _ => false

/-- The patch requests of a trace, in order. -/
def patchRequests {σ : Type} (t : List (Event σ)) : List (Event σ) :=
  t.filter Event.isPatch

/-! ## The reconciliation core -/

/-- The function `addPatchObj`. -/
def addPatchObj (path v : String) : PatchObj :=
  ⟨"add", path, v⟩

/-- Modelled from the spec: the method `Spec.PatchSpecPending` of package `pkg/job`, whose
source is not part of the operator's file; the spec says it builds a partial update
setting `status = Pending` only. -/
def PatchSpecPending {σ : Type} (_spec : σ) : List PatchObj :=
  [addPatchObj "/status" StatusPending]

/-- The call `json.Marshal(update)`. Marshalling a slice of maps whose values are all
strings cannot fail; the request body is kept as the operation sequence it encodes. -/
def jsonMarshal (update : List PatchObj) : Except GoError (List PatchObj) :=
  Except.ok update

/-- The method `jobmanager.patchjob`. -/
def patchjob {σ W : Type} (api : Api σ W) (jb : MapReduceJob σ) (update : List PatchObj)
    (s : State σ W) : Option GoError × State σ W :=
  match jsonMarshal update with
  | Except.error err => (some err, s)
  | Except.ok b =>
    match api.DoRaw jb.Namespace jb.Name b s.world with
    | (some err, w) => (some err, ⟨w, s.trace ++ [Event.patch jb.Namespace jb.Name b]⟩)
    | (none, w) => (none, ⟨w, s.trace ++ [Event.patch jb.Namespace jb.Name b]⟩)

/-- The method `jobmanager.specfail`. -/
def specfail {σ W : Type} (api : Api σ W) (jb : MapReduceJob σ) (err : GoError)
    (s : State σ W) : Option GoError × State σ W :=
  if jb.Status ≠ StatusFail then
    let updateobj : List PatchObj := []
    let updateobj := updateobj ++ [addPatchObj "/status" StatusFail]
    let updateobj := updateobj ++ [addPatchObj "/err" err.Message]
    patchjob api jb updateobj s
  else
    (none, s)

/-- The method `jobmanager.checkspec`. -/
def checkspec {σ W : Type} (api : Api σ W) (jb : MapReduceJob σ)
    (s : State σ W) : Option GoError × State σ W :=
  match api.Validate jb.Spec with
  | some err => specfail api jb err (s.emit (Event.validate jb.Spec))
  | none => patchjob api jb (PatchSpecPending jb.Spec) (s.emit (Event.validate jb.Spec))

/-- The method `jobmanager.process`. -/
def process {σ W : Type} (api : Api σ W) (jb : MapReduceJob σ)
    (s : State σ W) : Option GoError × State σ W :=
  if jb.Status = "" then checkspec api jb s else (none, s)

/-- The `for ... range jobList.Items` loop of `jobloopSingle`. -/
def jobloopSingleItems {σ W : Type} (api : Api σ W) :
    List (MapReduceJob σ) → State σ W → Option GoError × State σ W
  | [], s => (none, s)
  | jb :: rest, s =>
    match process api jb s with
    | (some err, s1) => (some err, s1)
    | (none, s1) => jobloopSingleItems api rest s1

/-- The method `jobmanager.jobloopSingle`. -/
def jobloopSingle {σ W : Type} (api : Api σ W) (s : State σ W) : Option GoError × State σ W :=
  match api.List s.world with
  | (Except.error err, w) => (some err, ⟨w, s.trace ++ [Event.list]⟩)
  | (Except.ok jobList, w) => jobloopSingleItems api jobList ⟨w, s.trace ++ [Event.list]⟩

/-- The constant `time.Second`, a duration in nanoseconds. -/
def Second : Nat := 1000000000

/-- One pass through the body of the `for` loop of `jobloop`: a tick, an error log line
when the tick failed, then `time.Sleep(time.Second * 15)`. -/
def jobloopBody {σ W : Type} (api : Api σ W) (s : State σ W) : State σ W :=
  match jobloopSingle api s with
  | (some err, s1) => (s1.emit (Event.logError err)).emit (Event.sleep (Second * 15))
  | (none, s1) => s1.emit (Event.sleep (Second * 15))

/-- The method `jobmanager.jobloop`, observed for `fuel` passes of its `for` loop. The first
component is `some r` when the method has returned `r`, and `none` while control is still
inside the loop. The loop has neither a `break` nor a `return`. -/
def jobloop {σ W : Type} (api : Api σ W) : Nat → State σ W → Option (Option GoError) × State σ W
  | 0, s => (none, s)
  | fuel + 1, s => jobloop api fuel (jobloopBody api s)

/-- The sleep durations of a trace, in order. -/
def sleepsOf {σ : Type} : List (Event σ) → List Nat
  | [] => []
  | Event.sleep d :: t => d :: sleepsOf t
  | _ :: t => sleepsOf t

/-- Is the event the start of a tick (the list fetch)? -/
def Event.isList {σ : Type} : Event σ → Bool
  | .list => true
  | _ => false

/-- Is the event a sleep? -/
def Event.isSleep {σ : Type} : Event σ → Bool
  | .sleep _ => true
  | _ => false

/-! ## Startup -/

/-- How a piece of startup code ends. -/
inductive Flow (α : Type) where
  | ret (a : α) : Flow α
  | fatal (msg : String) : Flow α
  | blocked : Flow α
deriving DecidableEq, Repr

/-- Sequencing: what follows a call runs only if the call returns. -/
def Flow.andThen {α β : Type} : Flow α → (α → Flow β) → Flow β
  | Flow.ret a, k => k a
  | Flow.fatal msg, _ => Flow.fatal msg
  | Flow.blocked, _ => Flow.blocked

/-- How `log.Fatal` prints an error value. -/
def showErr : Option GoError → String
  | none => "<nil>"
  | some err => err.Message

/-- The call `log.Fatal(v)`: writes the line and calls `os.Exit(1)`; it does not return. -/
def logFatal (v : Option GoError) : Flow Unit :=
  Flow.fatal (showErr v)

/-- The answers to the calls `main` makes before the loop. A call that succeeds answers
`none`. `WatchList` is a method of package `pkg/job`, whose source is not part of the
operator's file: it either returns a value (`some v`) or never comes back (`none`). -/
structure Startup where
  getconfig : Option GoError
  NewForConfig : Option GoError
  tprGet : Option GoError
  tprCreate : Option GoError
  dynamicNewClient : Option GoError
  RESTClientFor : Option GoError
  WatchList : Option (Option GoError)

/-- The descriptor `ensureTprExists` builds. -/
structure ThirdPartyResource where
  Kind : String
  APIVersion : String
  Name : String
  Description : String
  Versions : List String
deriving DecidableEq, Repr

/-- Requests of the bootstrap against the API server. -/
inductive BootEvent where
  | get (name : String) : BootEvent
  | create (tpr : ThirdPartyResource) : BootEvent
deriving DecidableEq, Repr

/-- Is the request a create? -/
def BootEvent.isCreate : BootEvent → Bool
  | .create _ => true
  | _ => false

/-- The function `ensureTprExists`, with the requests it issued. -/
def ensureTprExists (env : Startup) : Flow Unit × List BootEvent :=
  match env.tprGet with
  | none => (Flow.ret (), [BootEvent.get "map-reduce-job.turbobytes.com"])
  | some _ =>
    let tpr : ThirdPartyResource :=
      ⟨"ThirdPartyResource", "extensions/v1beta1", "map-reduce-job.turbobytes.com",
        "Map reduce job specification", ["v1alpha1"]⟩
    let after : Flow Unit :=
      match env.tprCreate with
      | some err => logFatal (some err)
      | none => Flow.ret ()
    (after, [BootEvent.get "map-reduce-job.turbobytes.com", BootEvent.create tpr])

/-- The value `newjobmanager` returns on success; its clients are part of `Api`. -/
inductive jobmanager where
  | mk : jobmanager
deriving DecidableEq, Repr

/-- The function `newjobmanager`. -/
def newjobmanager (env : Startup) : Flow (Except GoError jobmanager) :=
  match env.dynamicNewClient with
  | some err => Flow.ret (Except.error err)
  | none =>
    match env.RESTClientFor with
    | some err => Flow.ret (Except.error err)
    | none =>
      match env.WatchList with
      | none => Flow.blocked
      | some v => (logFatal v).andThen (fun _ => Flow.ret (Except.ok jobmanager.mk))

/-- Where `main` is after startup and `fuel` passes of the loop. -/
inductive MainResult (σ W : Type) where
  | fatal (msg : String) : MainResult σ W
  | blocked : MainResult σ W
  | looping (s : State σ W) : MainResult σ W
  | returned : MainResult σ W

/-- Has control reached the reconciliation loop? -/
def MainResult.inLoop {σ W : Type} : MainResult σ W → Bool
  | .looping _ => true
  | _ => false

/-- The function `main`. -/
def main {σ W : Type} (env : Startup) (api : Api σ W) (fuel : Nat) (s : State σ W) :
    MainResult σ W :=
  match env.getconfig with
  | some err => MainResult.fatal (showErr (some err))
  | none =>
    match env.NewForConfig with
    | some err => MainResult.fatal (showErr (some err))
    | none =>
      match (ensureTprExists env).1 with
      | Flow.fatal msg => MainResult.fatal msg
      | Flow.blocked => MainResult.blocked
      | Flow.ret _ =>
        match newjobmanager env with
        | Flow.fatal msg => MainResult.fatal msg
        | Flow.blocked => MainResult.blocked
        | Flow.ret (Except.error err) => MainResult.fatal (showErr (some err))
        | Flow.ret (Except.ok _) =>
          match jobloop api fuel s with
          | (none, s1) => MainResult.looping s1
          | (some (some err), _) => MainResult.fatal (showErr (some err))
          | (some none, _) => MainResult.returned

/-! ## The effect of a patch on the stored resource -/

/-- The top-level fields of a stored job resource. -/
abbrev Resource := String → Option String

/-- The field a JSON pointer of the form `/name` refers to. -/
def pointerField (path : String) : Option String :=
  match path.toList with
  | '/' :: name => some (String.mk name)
  | _ => none

/-- The effect of one `add` operation: it sets the named top-level field, whether or not
the field was there. Other operations are outside this model. -/
def applyOp (o : PatchObj) (res : Resource) : Option Resource :=
  if o.op = "add" then
    match pointerField o.path with
    | some name => some (fun k => if k = name then some o.value else res k)
    | none => none
  else
    none

/-- The effect of a patch request: its operations in order, all or none. -/
def applyPatch : List PatchObj → Resource → Option Resource
  | [], res => some res
  | o :: rest, res =>
    match applyOp o res with
    | some res1 => applyPatch rest res1
    | none => none

/-! ## Vocabulary of the statements -/

/-- Processes every job of a list once, in list order, whatever each one returns. -/
def processAll {σ W : Type} (api : Api σ W) : List (MapReduceJob σ) → State σ W → State σ W
  | [], s => s
  | jb :: rest, s => processAll api rest (process api jb s).2

/-- The events processing one job adds to the trace: nothing for a job with a status, the
validator call and one patch request for a job without. -/
def jobEvents {σ W : Type} (api : Api σ W) (jb : MapReduceJob σ) : List (Event σ) :=
  if jb.Status = "" then
    match api.Validate jb.Spec with
    | some err =>
      [Event.validate jb.Spec,
        Event.patch jb.Namespace jb.Name
          [addPatchObj "/status" StatusFail, addPatchObj "/err" err.Message]]
    | none =>
      [Event.validate jb.Spec, Event.patch jb.Namespace jb.Name (PatchSpecPending jb.Spec)]
  else
    []

/-- An API server for the examples: it stores the bodies it accepted, and rejects every
patch addressed to the name `locked`. The validator accepts the specification `true`. -/
def demoApi : Api Bool (List (List PatchObj)) :=
  ⟨fun _ name body w =>
      if name = "locked" then (some ⟨"Forbidden", "patch rejected"⟩, w) else (none, w ++ [body]),
    fun spec => if spec then none else some ⟨"", "missing field X"⟩,
    fun w =>
      (Except.ok
        [⟨"ns1", "j1", "", true⟩, ⟨"ns1", "locked", "", true⟩, ⟨"ns1", "j2", "", false⟩], w)⟩

/-- The same server with the job directory out of reach. -/
def demoApiListDown : Api Bool (List (List PatchObj)) :=
  ⟨demoApi.DoRaw, demoApi.Validate, fun w => (Except.error ⟨"Timeout", "list timed out"⟩, w)⟩

/-- The same server listing a failed job next to a fresh one. -/
def demoApiSettled : Api Bool (List (List PatchObj)) :=
  ⟨demoApi.DoRaw, demoApi.Validate,
    fun w => (Except.ok [⟨"ns1", "j4", "Fail", false⟩, ⟨"ns1", "j1", "", true⟩], w)⟩

/-- The state before anything happened. -/
def demoStart : State Bool (List (List PatchObj)) :=
  ⟨[], []⟩

/-! ## Single-job processing -/

/-- Unfolding of `patchjob`: one request, the server's answer handed back as it is. -/
theorem patchjob_eq {σ W : Type} (api : Api σ W) (jb : MapReduceJob σ) (update : List PatchObj)
    (s : State σ W) :
    patchjob api jb update s =
      ((api.DoRaw jb.Namespace jb.Name update s.world).1,
        ⟨(api.DoRaw jb.Namespace jb.Name update s.world).2,
          s.trace ++ [Event.patch jb.Namespace jb.Name update]⟩) := by
  simp only [patchjob, jsonMarshal]
  generalize api.DoRaw jb.Namespace jb.Name update s.world = answer
  rcases answer with ⟨_ | err, w⟩ <;> rfl

/-- The status `Fail` is not the empty status. -/
theorem statusFail_ne_empty : StatusFail ≠ "" := by decide

/-- C1: a job whose status is not the empty string is left alone: `process` returns nil and
the state is the one it started from, so the trace gained neither a validator call nor a
patch request. -/
theorem process_settled_noop {σ W : Type} (api : Api σ W) (jb : MapReduceJob σ) (s : State σ W)
    (h : jb.Status ≠ "") :
    process api jb s = (none, s) ∧
      (process api jb s).2.trace.filter Event.isValidate = s.trace.filter Event.isValidate ∧
      patchRequests (process api jb s).2.trace = patchRequests s.trace := by
  have hp : process api jb s = (none, s) := by
    unfold process
    rw [if_neg h]
  rw [hp]
  exact ⟨rfl, rfl, rfl⟩

/-- Witness for C1 at a pending job. -/
theorem process_settled_noop_witness :
    ("Pending" : String) ≠ "" ∧
      process demoApi ⟨"ns1", "j3", "Pending", false⟩ demoStart = (none, demoStart) :=
  ⟨by decide, (process_settled_noop demoApi ⟨"ns1", "j3", "Pending", false⟩ demoStart
    (by decide)).1⟩

/-- C2: a job with empty status whose validation fails with reason `r` yields exactly one
patch request, addressed to the job's namespace and name, with the body
`[add /status Fail, add /err r]`; `process` hands back the server's answer. -/
theorem process_invalid_spec {σ W : Type} (api : Api σ W) (jb : MapReduceJob σ) (s : State σ W)
    (r : GoError) (hs : jb.Status = "") (hv : api.Validate jb.Spec = some r) :
    process api jb s =
      ((api.DoRaw jb.Namespace jb.Name
          [⟨"add", "/status", "Fail"⟩, ⟨"add", "/err", r.Message⟩] s.world).1,
        ⟨(api.DoRaw jb.Namespace jb.Name
            [⟨"add", "/status", "Fail"⟩, ⟨"add", "/err", r.Message⟩] s.world).2,
          s.trace ++ [Event.validate jb.Spec,
            Event.patch jb.Namespace jb.Name
              [⟨"add", "/status", "Fail"⟩, ⟨"add", "/err", r.Message⟩]]⟩) ∧
      patchRequests (process api jb s).2.trace =
        patchRequests s.trace ++
          [Event.patch jb.Namespace jb.Name
            [⟨"add", "/status", "Fail"⟩, ⟨"add", "/err", r.Message⟩]] := by
  have hne : jb.Status ≠ StatusFail := by
    rw [hs]
    decide
  have hp : process api jb s =
      ((api.DoRaw jb.Namespace jb.Name
          [⟨"add", "/status", "Fail"⟩, ⟨"add", "/err", r.Message⟩] s.world).1,
        ⟨(api.DoRaw jb.Namespace jb.Name
            [⟨"add", "/status", "Fail"⟩, ⟨"add", "/err", r.Message⟩] s.world).2,
          s.trace ++ [Event.validate jb.Spec,
            Event.patch jb.Namespace jb.Name
              [⟨"add", "/status", "Fail"⟩, ⟨"add", "/err", r.Message⟩]]⟩) := by
    unfold process
    rw [if_pos hs]
    unfold checkspec
    rw [hv]
    simp only [specfail, if_pos hne, patchjob_eq, State.emit, List.nil_append,
      List.append_assoc, List.singleton_append]
    rfl
  refine ⟨hp, ?_⟩
  rw [hp]
  simp [patchRequests, Event.isPatch, List.filter_append]

/-- Witness for C2: the job `ns1/j2` with the reason `missing field X`. -/
theorem process_invalid_spec_witness :
    patchRequests (process demoApi ⟨"ns1", "j2", "", false⟩ demoStart).2.trace =
      patchRequests demoStart.trace ++
        [Event.patch "ns1" "j2"
          [⟨"add", "/status", "Fail"⟩, ⟨"add", "/err", "missing field X"⟩]] :=
  (process_invalid_spec demoApi ⟨"ns1", "j2", "", false⟩ demoStart ⟨"", "missing field X"⟩
    rfl rfl).2

/-- C3: a job with empty status whose specification validates yields exactly one patch
request, addressed to the job's namespace and name, with the body `[add /status Pending]`,
and `process` returns what that request returned: nil on success, the server's error
otherwise. -/
theorem process_valid_spec {σ W : Type} (api : Api σ W) (jb : MapReduceJob σ) (s : State σ W)
    (hs : jb.Status = "") (hv : api.Validate jb.Spec = none) :
    process api jb s =
      ((api.DoRaw jb.Namespace jb.Name [⟨"add", "/status", "Pending"⟩] s.world).1,
        ⟨(api.DoRaw jb.Namespace jb.Name [⟨"add", "/status", "Pending"⟩] s.world).2,
          s.trace ++ [Event.validate jb.Spec,
            Event.patch jb.Namespace jb.Name [⟨"add", "/status", "Pending"⟩]]⟩) ∧
      patchRequests (process api jb s).2.trace =
        patchRequests s.trace ++
          [Event.patch jb.Namespace jb.Name [⟨"add", "/status", "Pending"⟩]] := by
  have hp : process api jb s =
      ((api.DoRaw jb.Namespace jb.Name [⟨"add", "/status", "Pending"⟩] s.world).1,
        ⟨(api.DoRaw jb.Namespace jb.Name [⟨"add", "/status", "Pending"⟩] s.world).2,
          s.trace ++ [Event.validate jb.Spec,
            Event.patch jb.Namespace jb.Name [⟨"add", "/status", "Pending"⟩]]⟩) := by
    unfold process
    rw [if_pos hs]
    unfold checkspec
    rw [hv]
    simp only [patchjob_eq, State.emit, List.append_assoc, List.singleton_append]
    rfl
  refine ⟨hp, ?_⟩
  rw [hp]
  simp [patchRequests, Event.isPatch, List.filter_append]

/-- Witness for C3: the job `ns1/j1` is patched once and the call returns nil; the job
`ns1/locked` is patched once and the call returns the server's error. -/
theorem process_valid_spec_witness :
    (process demoApi ⟨"ns1", "j1", "", true⟩ demoStart).1 = none ∧
      (process demoApi ⟨"ns1", "locked", "", true⟩ demoStart).1 =
        some ⟨"Forbidden", "patch rejected"⟩ ∧
      patchRequests (process demoApi ⟨"ns1", "locked", "", true⟩ demoStart).2.trace =
        patchRequests demoStart.trace ++
          [Event.patch "ns1" "locked" [⟨"add", "/status", "Pending"⟩]] :=
  ⟨by
      rw [(process_valid_spec demoApi ⟨"ns1", "j1", "", true⟩ demoStart rfl rfl).1]
      decide,
    by
      rw [(process_valid_spec demoApi ⟨"ns1", "locked", "", true⟩ demoStart rfl rfl).1]
      decide,
    (process_valid_spec demoApi ⟨"ns1", "locked", "", true⟩ demoStart rfl rfl).2⟩

/-! ## One tick -/

/-- What processing one job adds to the trace does not depend on the server. -/
theorem process_trace {σ W : Type} (api : Api σ W) (jb : MapReduceJob σ) (s : State σ W) :
    (process api jb s).2.trace = s.trace ++ jobEvents api jb := by
  unfold process jobEvents
  by_cases hs : jb.Status = ""
  · have hne : jb.Status ≠ StatusFail := by
      rw [hs]
      decide
    rw [if_pos hs, if_pos hs]
    unfold checkspec
    cases hv : api.Validate jb.Spec with
    | none => simp [patchjob_eq, State.emit]
    | some err => simp [specfail, hne, patchjob_eq, State.emit]
  · rw [if_neg hs, if_neg hs]
    simp

/-- Processing a list of jobs one after the other adds their events in list order. -/
theorem processAll_trace {σ W : Type} (api : Api σ W) (jobs : List (MapReduceJob σ)) :
    ∀ s : State σ W, (processAll api jobs s).trace = s.trace ++ jobs.flatMap (jobEvents api) := by
  induction jobs with
  | nil =>
    intro s
    simp [processAll]
  | cons jb rest ih =>
    intro s
    simp [processAll, ih, process_trace, List.flatMap_cons]

/-- If no job fails, the loop over the items is `processAll` and returns nil. -/
theorem jobloopSingleItems_all_ok {σ W : Type} (api : Api σ W) (jobs : List (MapReduceJob σ)) :
    ∀ s : State σ W,
      (∀ k jb, jobs[k]? = some jb → (process api jb (processAll api (jobs.take k) s)).1 = none) →
      jobloopSingleItems api jobs s = (none, processAll api jobs s) := by
  induction jobs with
  | nil =>
    intro s _
    rfl
  | cons jb rest ih =>
    intro s h
    have h0 : (process api jb s).1 = none := by
      have := h 0 jb (by simp)
      simpa [processAll] using this
    have hrest := ih (process api jb s).2 (fun k j hk => by
      have := h (k + 1) j (by simpa using hk)
      simpa [processAll] using this)
    unfold jobloopSingleItems
    rcases hp : process api jb s with ⟨r, s1⟩
    rw [hp] at h0 hrest
    simp only at h0
    subst h0
    simpa [processAll, hp] using hrest

/-- If the job at position `i` is the first to fail, the loop over the items stops there. -/
theorem jobloopSingleItems_first_error {σ W : Type} (api : Api σ W)
    (jobs : List (MapReduceJob σ)) :
    ∀ (s : State σ W) (i : Nat) (jb : MapReduceJob σ) (e : GoError),
      jobs[i]? = some jb →
      (∀ k j, k < i → jobs[k]? = some j →
        (process api j (processAll api (jobs.take k) s)).1 = none) →
      (process api jb (processAll api (jobs.take i) s)).1 = some e →
      jobloopSingleItems api jobs s = (some e, processAll api (jobs.take (i + 1)) s) := by
  induction jobs with
  | nil =>
    intro s i jb e hi
    simp at hi
  | cons j0 rest ih =>
    intro s i jb e hi hbefore hfail
    unfold jobloopSingleItems
    cases i with
    | zero =>
      simp only [List.getElem?_cons_zero, Option.some.injEq] at hi
      subst hi
      simp only [List.take_zero, processAll] at hfail
      rcases hp : process api j0 s with ⟨r, s1⟩
      rw [hp] at hfail
      simp only at hfail
      subst hfail
      simp [processAll, hp]
    | succ n =>
      have h0 : (process api j0 s).1 = none := by
        have := hbefore 0 j0 (Nat.succ_pos n) (by simp)
        simpa [processAll] using this
      have hrest := ih (process api j0 s).2 n jb e (by simpa using hi)
        (fun k j hk hj => by
          have := hbefore (k + 1) j (Nat.succ_lt_succ hk) (by simpa using hj)
          simpa [processAll] using this)
        (by simpa [processAll] using hfail)
      rcases hp : process api j0 s with ⟨r, s1⟩
      rw [hp] at h0 hrest
      simp only at h0
      subst h0
      simpa [processAll, hp] using hrest

/-- Whatever happens, the loop over the items processed a prefix of the list. -/
theorem jobloopSingleItems_prefix {σ W : Type} (api : Api σ W) (jobs : List (MapReduceJob σ)) :
    ∀ s : State σ W, ∃ n,
      (jobloopSingleItems api jobs s).2.trace =
        s.trace ++ (jobs.take n).flatMap (jobEvents api) := by
  induction jobs with
  | nil =>
    intro s
    exact ⟨0, by simp [jobloopSingleItems]⟩
  | cons jb rest ih =>
    intro s
    unfold jobloopSingleItems
    rcases hp : process api jb s with ⟨r, s1⟩
    have ht : s1.trace = s.trace ++ jobEvents api jb := by
      have := process_trace api jb s
      rw [hp] at this
      exact this
    cases r with
    | some err => exact ⟨1, by simp [ht, List.flatMap_cons]⟩
    | none =>
      obtain ⟨n, hn⟩ := ih s1
      exact ⟨n + 1, by simp [hn, ht, List.flatMap_cons]⟩

/-- Unfolding of `jobloopSingle` after a successful list fetch. -/
theorem jobloopSingle_listed {σ W : Type} (api : Api σ W) (s : State σ W)
    (jobs : List (MapReduceJob σ)) (w : W) (hlist : api.List s.world = (Except.ok jobs, w)) :
    jobloopSingle api s = jobloopSingleItems api jobs ⟨w, s.trace ++ [Event.list]⟩ := by
  unfold jobloopSingle
  rw [hlist]

/-- A patch request among the events of a job comes from a job without status and is
addressed to that job. -/
theorem patch_mem_jobEvents {σ W : Type} (api : Api σ W) (jb : MapReduceJob σ)
    (ns name : String) (body : List PatchObj)
    (h : Event.patch ns name body ∈ jobEvents api jb) :
    jb.Status = "" ∧ ns = jb.Namespace ∧ name = jb.Name := by
  unfold jobEvents at h
  by_cases hs : jb.Status = ""
  · rw [if_pos hs] at h
    refine ⟨hs, ?_⟩
    cases hv : api.Validate jb.Spec with
    | none =>
      rw [hv] at h
      simp at h
      exact ⟨h.1, h.2.1⟩
    | some err =>
      rw [hv] at h
      simp at h
      exact ⟨h.1, h.2.1⟩
  · rw [if_neg hs] at h
    simp at h

/-- C4: after a successful list fetch, if the job at position `i` is the first whose
processing returns an error, `jobloopSingle` returns that error, the jobs at positions
`0..i` were processed once each in list order, and the trace holds no event (so no patch
request) of any later job; if no job fails, every job is processed once in list order and
`jobloopSingle` returns nil. -/
theorem jobloopSingle_order_and_short_circuit {σ W : Type} (api : Api σ W) (s : State σ W)
    (jobs : List (MapReduceJob σ)) (w : W) (hlist : api.List s.world = (Except.ok jobs, w)) :
    (∀ (i : Nat) (jb : MapReduceJob σ) (e : GoError),
        jobs[i]? = some jb →
        (∀ k j, k < i → jobs[k]? = some j →
          (process api j (processAll api (jobs.take k) ⟨w, s.trace ++ [Event.list]⟩)).1 = none) →
        (process api jb (processAll api (jobs.take i) ⟨w, s.trace ++ [Event.list]⟩)).1 = some e →
        jobloopSingle api s =
            (some e, processAll api (jobs.take (i + 1)) ⟨w, s.trace ++ [Event.list]⟩) ∧
          (jobloopSingle api s).2.trace =
            s.trace ++ Event.list :: (jobs.take (i + 1)).flatMap (jobEvents api)) ∧
      ((∀ k j, jobs[k]? = some j →
          (process api j (processAll api (jobs.take k) ⟨w, s.trace ++ [Event.list]⟩)).1 = none) →
        jobloopSingle api s = (none, processAll api jobs ⟨w, s.trace ++ [Event.list]⟩) ∧
          (jobloopSingle api s).2.trace =
            s.trace ++ Event.list :: jobs.flatMap (jobEvents api)) := by
  constructor
  · intro i jb e hi hbefore hfail
    have h := jobloopSingleItems_first_error api jobs ⟨w, s.trace ++ [Event.list]⟩ i jb e hi
      hbefore hfail
    rw [jobloopSingle_listed api s jobs w hlist, h]
    exact ⟨rfl, by simp [processAll_trace]⟩
  · intro hall
    have h := jobloopSingleItems_all_ok api jobs ⟨w, s.trace ++ [Event.list]⟩ hall
    rw [jobloopSingle_listed api s jobs w hlist, h]
    exact ⟨rfl, by simp [processAll_trace]⟩

/-- Witness for C4: the list `[j1, locked, j2]`, where the patch of `locked` is rejected:
the tick returns that error and `j2` is never patched; and the list `[j4, j1]`, where nothing
fails. -/
theorem jobloopSingle_order_and_short_circuit_witness :
    ((jobloopSingle demoApi demoStart).1 = some ⟨"Forbidden", "patch rejected"⟩ ∧
        (jobloopSingle demoApi demoStart).2.trace =
          [Event.list, Event.validate true,
            Event.patch "ns1" "j1" [⟨"add", "/status", "Pending"⟩], Event.validate true,
            Event.patch "ns1" "locked" [⟨"add", "/status", "Pending"⟩]]) ∧
      ((jobloopSingle demoApiSettled demoStart).1 = none ∧
        (jobloopSingle demoApiSettled demoStart).2.trace =
          [Event.list, Event.validate true,
            Event.patch "ns1" "j1" [⟨"add", "/status", "Pending"⟩]]) := by
  have h1 := (jobloopSingle_order_and_short_circuit demoApi demoStart
      [⟨"ns1", "j1", "", true⟩, ⟨"ns1", "locked", "", true⟩, ⟨"ns1", "j2", "", false⟩] []
      rfl).1 1 ⟨"ns1", "locked", "", true⟩ ⟨"Forbidden", "patch rejected"⟩ rfl
      (fun k j hk hj => by
        obtain rfl : k = 0 := by omega
        simp only [List.getElem?_cons_zero, Option.some.injEq] at hj
        subst hj
        decide)
      (by decide)
  have h2 := (jobloopSingle_order_and_short_circuit demoApiSettled demoStart
      [⟨"ns1", "j4", "Fail", false⟩, ⟨"ns1", "j1", "", true⟩] [] rfl).2
      (fun k j hj => by
        match k, hj with
        | 0, hj =>
          simp only [List.getElem?_cons_zero, Option.some.injEq] at hj
          subst hj
          decide
        | 1, hj =>
          simp only [List.getElem?_cons_succ, List.getElem?_cons_zero, Option.some.injEq] at hj
          subst hj
          decide
        | n + 2, hj => simp at hj)
  refine ⟨⟨?_, ?_⟩, ⟨?_, ?_⟩⟩
  · rw [h1.1]
  · rw [h1.2]
    decide
  · rw [h2.1]
  · rw [h2.2]
    decide

/-- C5: if the list fetch fails, `jobloopSingle` returns that error and does nothing else:
the trace gains the list fetch only, so no job was validated and no patch request was
issued. -/
theorem jobloopSingle_list_failure {σ W : Type} (api : Api σ W) (s : State σ W) (e : GoError)
    (w : W) (hlist : api.List s.world = (Except.error e, w)) :
    jobloopSingle api s = (some e, ⟨w, s.trace ++ [Event.list]⟩) ∧
      patchRequests (jobloopSingle api s).2.trace = patchRequests s.trace ∧
      (jobloopSingle api s).2.trace.filter Event.isValidate =
        s.trace.filter Event.isValidate := by
  have h : jobloopSingle api s = (some e, ⟨w, s.trace ++ [Event.list]⟩) := by
    unfold jobloopSingle
    rw [hlist]
  rw [h]
  refine ⟨rfl, ?_, ?_⟩
  · simp [patchRequests, Event.isPatch, List.filter_append]
  · simp [Event.isValidate, List.filter_append]

/-- Witness for C5: the job directory times out. -/
theorem jobloopSingle_list_failure_witness :
    jobloopSingle demoApiListDown demoStart =
        (some ⟨"Timeout", "list timed out"⟩, ⟨[], demoStart.trace ++ [Event.list]⟩) ∧
      patchRequests (jobloopSingle demoApiListDown demoStart).2.trace =
        patchRequests demoStart.trace :=
  ⟨(jobloopSingle_list_failure demoApiListDown demoStart ⟨"Timeout", "list timed out"⟩ []
      rfl).1,
    (jobloopSingle_list_failure demoApiListDown demoStart ⟨"Timeout", "list timed out"⟩ []
      rfl).2.1⟩

/-- C6: for a job whose snapshot status is `Fail`, `specfail` returns nil and leaves the
state as it was, whatever the validation error; and in a tick over a list in which namespace
and name identify a job, no patch request is addressed to a job listed with status `Fail`. -/
theorem specfail_guard {σ W : Type} (api : Api σ W) :
    (∀ (jb : MapReduceJob σ) (err : GoError) (s : State σ W),
        jb.Status = StatusFail → specfail api jb err s = (none, s)) ∧
      (∀ (s : State σ W) (jobs : List (MapReduceJob σ)) (w : W),
        api.List s.world = (Except.ok jobs, w) →
        (∀ a ∈ jobs, ∀ b ∈ jobs, a.Namespace = b.Namespace → a.Name = b.Name → a = b) →
        ∃ t, (jobloopSingle api s).2.trace = s.trace ++ t ∧
          ∀ jb ∈ jobs, jb.Status = StatusFail →
            ∀ body, Event.patch jb.Namespace jb.Name body ∉ t) := by
  constructor
  · intro jb err s h
    unfold specfail
    rw [if_neg (not_not.mpr h)]
  · intro s jobs w hlist hid
    obtain ⟨n, hn⟩ := jobloopSingleItems_prefix api jobs ⟨w, s.trace ++ [Event.list]⟩
    refine ⟨Event.list :: (jobs.take n).flatMap (jobEvents api), ?_, ?_⟩
    · rw [jobloopSingle_listed api s jobs w hlist, hn]
      simp
    · intro jb hjb hfail body hmem
      rcases List.mem_cons.mp hmem with h | h
      · cases h
      · obtain ⟨j, hj, hev⟩ := List.mem_flatMap.mp h
        obtain ⟨hs, hns, hname⟩ := patch_mem_jobEvents api j _ _ _ hev
        have hjj : jb = j := hid jb hjb j (List.mem_of_mem_take hj) hns hname
        rw [hjj, hs] at hfail
        exact statusFail_ne_empty hfail.symm

/-- Witness for C6: the job `ns1/j4`, listed with status `Fail` and an invalid
specification, is not touched by `specfail`, and the tick that lists it sends it no patch. -/
theorem specfail_guard_witness :
    specfail demoApi ⟨"ns1", "j4", "Fail", false⟩ ⟨"", "missing field X"⟩ demoStart =
        (none, demoStart) ∧
      ∃ t, (jobloopSingle demoApiSettled demoStart).2.trace = demoStart.trace ++ t ∧
        ∀ jb ∈ [(⟨"ns1", "j4", "Fail", false⟩ : MapReduceJob Bool), ⟨"ns1", "j1", "", true⟩],
          jb.Status = StatusFail → ∀ body, Event.patch jb.Namespace jb.Name body ∉ t :=
  ⟨(specfail_guard demoApi).1 ⟨"ns1", "j4", "Fail", false⟩ ⟨"", "missing field X"⟩ demoStart rfl,
    (specfail_guard demoApiSettled).2 demoStart
      [⟨"ns1", "j4", "Fail", false⟩, ⟨"ns1", "j1", "", true⟩] [] rfl (by decide)⟩

/-! ## The loop -/

/-- The events of a job are validator calls and patch requests. -/
theorem jobEvents_kind {σ W : Type} (api : Api σ W) (jb : MapReduceJob σ) :
    ∀ e ∈ jobEvents api jb, e.isList = false ∧ e.isSleep = false := by
  intro e he
  unfold jobEvents at he
  by_cases hs : jb.Status = ""
  · rw [if_pos hs] at he
    cases hv : api.Validate jb.Spec with
    | none =>
      rw [hv] at he
      simp at he
      rcases he with rfl | rfl <;> exact ⟨rfl, rfl⟩
    | some err =>
      rw [hv] at he
      simp at he
      rcases he with rfl | rfl <;> exact ⟨rfl, rfl⟩
  · rw [if_neg hs] at he
    simp at he

/-- A tick starts with the list fetch; what follows are validator calls and patch
requests. -/
theorem jobloopSingle_shape {σ W : Type} (api : Api σ W) (s : State σ W) :
    ∃ mid, (jobloopSingle api s).2.trace = s.trace ++ Event.list :: mid ∧
      ∀ e ∈ mid, e.isList = false ∧ e.isSleep = false := by
  rcases hl : api.List s.world with ⟨r, w⟩
  cases r with
  | error err =>
    refine ⟨[], ?_, by simp⟩
    unfold jobloopSingle
    rw [hl]
  | ok jobs =>
    obtain ⟨n, hn⟩ := jobloopSingleItems_prefix api jobs ⟨w, s.trace ++ [Event.list]⟩
    refine ⟨(jobs.take n).flatMap (jobEvents api), ?_, ?_⟩
    · rw [jobloopSingle_listed api s jobs w hl, hn]
      simp
    · intro e he
      obtain ⟨j, _, hj⟩ := List.mem_flatMap.mp he
      exact jobEvents_kind api j e hj

/-- One pass of the loop: the tick, possibly an error line, then one sleep of 15 s. -/
theorem jobloopBody_shape {σ W : Type} (api : Api σ W) (s : State σ W) :
    ∃ mid, (jobloopBody api s).trace = s.trace ++ Event.list :: mid ++ [Event.sleep 15000000000] ∧
      ∀ e ∈ mid, e.isList = false ∧ e.isSleep = false := by
  obtain ⟨mid, hmid, hkind⟩ := jobloopSingle_shape api s
  unfold jobloopBody
  rcases hp : jobloopSingle api s with ⟨r, s1⟩
  rw [hp] at hmid
  simp only at hmid
  cases r with
  | none =>
    refine ⟨mid, ?_, hkind⟩
    simp [State.emit, hmid, Second]
  | some err =>
    refine ⟨mid ++ [Event.logError err], ?_, ?_⟩
    · simp [State.emit, hmid, Second]
    · intro e he
      rcases List.mem_append.mp he with h | h
      · exact hkind e h
      · simp at h
        subst h
        exact ⟨rfl, rfl⟩

/-- The sleeps of a concatenation. -/
theorem sleepsOf_append {σ : Type} (a b : List (Event σ)) :
    sleepsOf (a ++ b) = sleepsOf a ++ sleepsOf b := by
  induction a with
  | nil => rfl
  | cons e t ih => cases e <;> simp [sleepsOf, ih]

/-- A trace without sleep events has no sleeps. -/
theorem sleepsOf_eq_nil {σ : Type} (a : List (Event σ)) (h : ∀ e ∈ a, e.isSleep = false) :
    sleepsOf a = [] := by
  induction a with
  | nil => rfl
  | cons e t ih =>
    have ht := ih (fun x hx => h x (List.mem_cons_of_mem e hx))
    have he := h e (List.mem_cons_self e t)
    cases e <;> simp_all [sleepsOf, Event.isSleep]

/-- One pass of the loop sleeps once, for 15 s. -/
theorem sleepsOf_jobloopBody {σ W : Type} (api : Api σ W) (s : State σ W) :
    sleepsOf (jobloopBody api s).trace = sleepsOf s.trace ++ [15000000000] := by
  obtain ⟨mid, hmid, hkind⟩ := jobloopBody_shape api s
  rw [hmid]
  have h0 : sleepsOf mid = [] := sleepsOf_eq_nil mid (fun e he => (hkind e he).2)
  have h1 : s.trace ++ Event.list :: mid ++ [Event.sleep 15000000000] =
      s.trace ++ ([Event.list] ++ (mid ++ [Event.sleep 15000000000])) := by simp
  rw [h1, sleepsOf_append, sleepsOf_append, sleepsOf_append, h0]
  simp [sleepsOf]

/-- After `n + 1` passes the state is one more pass applied to the state after `n`. -/
theorem jobloop_succ {σ W : Type} (api : Api σ W) (n : Nat) :
    ∀ s : State σ W, (jobloop api (n + 1) s).2 = jobloopBody api (jobloop api n s).2 := by
  induction n with
  | zero =>
    intro s
    rfl
  | succ k ih =>
    intro s
    have h := ih (jobloopBody api s)
    simpa [jobloop] using h

/-- The loop has not returned after any number of passes. -/
theorem jobloop_running {σ W : Type} (api : Api σ W) (n : Nat) :
    ∀ s : State σ W, (jobloop api n s).1 = none := by
  induction n with
  | zero =>
    intro s
    rfl
  | succ k ih =>
    intro s
    simpa [jobloop] using ih (jobloopBody api s)

/-- After `n` passes the loop has slept `n` times, 15 s each time. -/
theorem sleepsOf_jobloop {σ W : Type} (api : Api σ W) (n : Nat) :
    ∀ s : State σ W,
      sleepsOf (jobloop api n s).2.trace = sleepsOf s.trace ++ List.replicate n 15000000000 := by
  induction n with
  | zero =>
    intro s
    simp [jobloop]
  | succ k ih =>
    intro s
    rw [jobloop_succ, sleepsOf_jobloopBody, ih, List.replicate_succ', List.append_assoc]

/-- C10: `jobloop` has no terminal state. Whatever the ticks return, after any number `n`
of passes the method has not returned; pass `n + 1` is the loop body run on the state after
pass `n`, and it consists of one tick, at most an error line, and then one sleep of exactly
15 s; so after `n` passes the loop slept `n` times, 15 s each, whether or not a tick
failed. -/
theorem jobloop_never_returns {σ W : Type} (api : Api σ W) (s : State σ W) (n : Nat) :
    (jobloop api n s).1 = none ∧
      (jobloop api (n + 1) s).2 = jobloopBody api (jobloop api n s).2 ∧
      (∃ mid, (jobloopBody api (jobloop api n s).2).trace =
          (jobloop api n s).2.trace ++ Event.list :: mid ++ [Event.sleep 15000000000] ∧
        mid.all (fun e => !e.isList && !e.isSleep) = true) ∧
      sleepsOf (jobloop api n s).2.trace =
        sleepsOf s.trace ++ List.replicate n 15000000000 := by
  refine ⟨jobloop_running api n s, jobloop_succ api n s, ?_, sleepsOf_jobloop api n s⟩
  obtain ⟨mid, hmid, hkind⟩ := jobloopBody_shape api (jobloop api n s).2
  refine ⟨mid, hmid, ?_⟩
  rw [List.all_eq_true]
  intro e he
  have := hkind e he
  simp [this.1, this.2]

/-! ## Effect of the failure patch -/

/-- The pointers of the failure patch name the fields `status` and `err`. -/
theorem pointerField_status_err :
    pointerField "/status" = some "status" ∧ pointerField "/err" = some "err" := by
  constructor <;> decide

/-- C7: the failure patch `specfail` sends for a job not yet marked failed is
`[add /status Fail, add /err r]`, and its effect on the stored resource is idempotent: with
each `add` read as setting the named top-level field, the server accepts the patch, applying
it a second time (a retry, or the identical request of a racing replica, whichever comes
first) gives the resource the first application gave, and every field other than `status`
and `err` keeps its value. -/
theorem failure_patch_idempotent {σ W : Type} (api : Api σ W) (jb : MapReduceJob σ)
    (err : GoError) (s : State σ W) (res : Resource) (h : jb.Status ≠ StatusFail) :
    (specfail api jb err s).2.trace =
        s.trace ++ [Event.patch jb.Namespace jb.Name
          [addPatchObj "/status" StatusFail, addPatchObj "/err" err.Message]] ∧
      ∃ res1,
        applyPatch [addPatchObj "/status" StatusFail, addPatchObj "/err" err.Message] res =
            some res1 ∧
          applyPatch [addPatchObj "/status" StatusFail, addPatchObj "/err" err.Message] res1 =
            some res1 ∧
          res1 "status" = some "Fail" ∧ res1 "err" = some err.Message ∧
          ∀ k, k ≠ "status" → k ≠ "err" → res1 k = res k := by
  constructor
  · simp [specfail, h, patchjob_eq]
  · have hne : ("status" : String) ≠ "err" := by decide
    refine ⟨fun k => if k = "err" then some err.Message
      else if k = "status" then some "Fail" else res k, ?_, ?_, ?_, ?_, ?_⟩
    · simp [applyPatch, applyOp, addPatchObj, pointerField_status_err.1,
        pointerField_status_err.2, StatusFail]
    · simp only [applyPatch, applyOp, addPatchObj, pointerField_status_err.1,
        pointerField_status_err.2, StatusFail, if_true, Option.some.injEq]
      funext k
      by_cases h1 : k = "err"
      · simp [h1]
      · by_cases h2 : k = "status"
        · simp [h2, hne]
        · simp [h1, h2]
    · simp [hne]
    · simp
    · intro k h1 h2
      simp [h1, h2]

/-- Witness for C7: the failure patch of job `ns1/j2` applied to a stored resource that also
has a field `spec`. -/
theorem failure_patch_idempotent_witness :
    ∃ res1,
      applyPatch [addPatchObj "/status" StatusFail, addPatchObj "/err" "missing field X"]
          (fun k => if k = "spec" then some "wordcount" else none) = some res1 ∧
        applyPatch [addPatchObj "/status" StatusFail, addPatchObj "/err" "missing field X"]
          res1 = some res1 ∧
        res1 "status" = some "Fail" ∧ res1 "err" = some "missing field X" ∧
        ∀ k, k ≠ "status" → k ≠ "err" →
          res1 k = (fun k => if k = "spec" then some "wordcount" else none) k :=
  (failure_patch_idempotent demoApi ⟨"ns1", "j2", "", false⟩ ⟨"", "missing field X"⟩ demoStart
    (fun k => if k = "spec" then some "wordcount" else none) (by decide)).2

/-! ## Startup -/

/-- C8: when credential loading, clientset construction, type registration and both client
constructions succeed, `newjobmanager` reaches `log.Fatal(j.jobclient.WatchList())`: if
`WatchList` returns, with nil or with an error, the process exits fatally, and the
`return j, nil` after it is never run; if it does not return, `main` stays inside it. In
no run does control reach the reconciliation loop. -/
theorem main_never_enters_loop {σ W : Type} (api : Api σ W) (fuel : Nat) (s : State σ W) :
    main ⟨none, none, none, none, none, none, some none⟩ api fuel s = MainResult.fatal "<nil>" ∧
      (∀ create v, main ⟨none, none, none, create, none, none, some v⟩ api fuel s =
        MainResult.fatal (showErr v)) ∧
      (∀ notFound v, main ⟨none, none, some notFound, none, none, none, some v⟩ api fuel s =
        MainResult.fatal (showErr v)) ∧
      ∀ env, (main env api fuel s).inLoop = false := by
  refine ⟨rfl, fun _ _ => rfl, fun _ _ => rfl, ?_⟩
  intro env
  rcases env with ⟨c, n, g, cr, d, r, wl⟩
  cases c <;> cases n <;> cases g <;> cases cr <;> cases d <;> cases r <;> cases wl <;> rfl

/-- Counterexample for C9: the descriptor is not found and the create request fails with
`AlreadyExists`; `ensureTprExists` calls `log.Fatal`, so the statement that a create error is
fatal exactly when it is not "already exists" does not hold. -/
theorem ensureTprExists_already_exists_is_fatal :
    IsAlreadyExists ⟨"AlreadyExists", "thirdpartyresources already exists"⟩ = true ∧
      (ensureTprExists ⟨none, none, some ⟨"NotFound", "thirdpartyresources not found"⟩,
        some ⟨"AlreadyExists", "thirdpartyresources already exists"⟩,
        none, none, some none⟩).1 = Flow.fatal "thirdpartyresources already exists" ∧
      ¬ ((ensureTprExists ⟨none, none, some ⟨"NotFound", "thirdpartyresources not found"⟩,
          some ⟨"AlreadyExists", "thirdpartyresources already exists"⟩,
          none, none, some none⟩).1 = Flow.fatal "thirdpartyresources already exists" ↔
        IsAlreadyExists ⟨"AlreadyExists", "thirdpartyresources already exists"⟩ = false) := by
  decide

/-- C9, amended: when the descriptor is found `ensureTprExists` issues no create request and
returns; when the get fails it issues exactly one create request, and startup is aborted if
and only if that request returns an error, "already exists" included. -/
theorem ensureTprExists_create_error_fatal (env : Startup) :
    (env.tprGet = none →
        (ensureTprExists env).1 = Flow.ret () ∧
          (ensureTprExists env).2.filter BootEvent.isCreate = []) ∧
      (∀ g, env.tprGet = some g →
        ((ensureTprExists env).2.filter BootEvent.isCreate).length = 1 ∧
          (∀ e, env.tprCreate = some e → (ensureTprExists env).1 = Flow.fatal e.Message) ∧
          (env.tprCreate = none → (ensureTprExists env).1 = Flow.ret ())) := by
  constructor
  · intro h
    simp [ensureTprExists, h, BootEvent.isCreate]
  · intro g h
    refine ⟨by simp [ensureTprExists, h, BootEvent.isCreate], ?_, ?_⟩
    · intro e he
      simp [ensureTprExists, h, he, logFatal, showErr]
    · intro he
      simp [ensureTprExists, h, he]

/-- Witness for C9 as amended: a registered descriptor, and a create request that fails. -/
theorem ensureTprExists_create_error_fatal_witness :
    ((ensureTprExists ⟨none, none, none, none, none, none, some none⟩).1 = Flow.ret () ∧
        (ensureTprExists ⟨none, none, none, none, none, none, some none⟩).2.filter
          BootEvent.isCreate = []) ∧
      (ensureTprExists ⟨none, none, some ⟨"NotFound", "thirdpartyresources not found"⟩,
        some ⟨"Forbidden", "thirdpartyresources is forbidden"⟩, none, none, some none⟩).1 =
        Flow.fatal "thirdpartyresources is forbidden" :=
  ⟨(ensureTprExists_create_error_fatal ⟨none, none, none, none, none, none, some none⟩).1 rfl,
    ((ensureTprExists_create_error_fatal
      ⟨none, none, some ⟨"NotFound", "thirdpartyresources not found"⟩,
        some ⟨"Forbidden", "thirdpartyresources is forbidden"⟩, none, none, some none⟩).2
      ⟨"NotFound", "thirdpartyresources not found"⟩ rfl).2.1
      ⟨"Forbidden", "thirdpartyresources is forbidden"⟩ rfl⟩

end Kubemr
